import Mathlib

/-!
Verification of the discovery-and-polling engine of `pollerBILL.c`.

The development shallowly embeds the parts of the source the claims are
about:

* the per-device busy-wait loop of `poll()` (lines 671-678);
* the shared-memory state (`*Resp`, `*End`, `*Nga`, `NewClient`, the
  `Clients` table and `DeviceCount`) and the events of the two-process
  system that write it;
* the frame classification and announce detection of `filter()`
  (lines 337-377);
* the discovery drain of `poll()` (lines 561-593);
* the Topology message construction (lines 598-650);
* the per-device poll datagram (lines 543-546, 658-665) and the order of
  shared writes in one poll round (lines 654-684).

Machine bytes are modelled as `Nat` with `% 256` applied exactly where the
source stores into an `unsigned char`.
-/

/-- Constant `IDLE_POLL` from the source: wait budget before a response starts. -/
def IDLE_POLL : Nat := 150

/-- Constant `MAX_RESPONSE_TIME` from the source: wait budget once a response started. -/
def MAX_RESPONSE_TIME : Nat := 600

/-- Constant `MAX_CLIENTS` from the source. -/
def MAX_CLIENTS : Nat := 64

/-- Constant `OUR_MQTT_PORT` from the source. -/
def OUR_MQTT_PORT : Nat := 1883

/-- Constant `BROADCAST_PORT` from the source, defined as 30000 in `poll`. -/
def BROADCAST_PORT : Nat := 30000

/-- One read of the shared cells `*Resp` and `*End` by the wait loop.  The
flags are written asynchronously by the other process, so the loop's reads
are modelled as an arbitrary oracle. -/
structure SharedRead where
  resp : Bool
  fend : Bool

/-- The busy-wait of `poll()` lines 671-678:

`idle = 0; while (*Resp == 0 ? idle < IDLE_POLL : idle < MAX_RESPONSE_TIME)
\x7b msleep(1); idle++; if (*End != 0 && *Resp != 0) break; \x7d`

`cond k` is the value of `*Resp != 0` read by the loop condition at
iteration `k`; `body k` is the joint read of `*End` and `*Resp` by the
break test of iteration `k`.  The result is the final value of `idle`
(equal to the number of 1 ms sleeps performed) paired with `true` iff the
loop left through the `break`.  The fuel starts at `MAX_RESPONSE_TIME`
with `idle = 0`; the guard keeps `idle < MAX_RESPONSE_TIME` whenever an
iteration runs, so the fuel can only run out at `idle = MAX_RESPONSE_TIME`,
where the loop condition is false in both branches and the loop would exit
the same way. -/
def pollWaitAux (cond : Nat → Bool) (body : Nat → SharedRead) :
    Nat → Nat → Nat × Bool
  | 0, idle => (idle, false)
  | fuel + 1, idle =>
    if (if cond idle then idle < MAX_RESPONSE_TIME else idle < IDLE_POLL) then
      if (body idle).fend && (body idle).resp then (idle + 1, true)
      else pollWaitAux cond body fuel (idle + 1)
    else (idle, false)

/-- The wait loop as entered by the source: `idle` starts at `0`. -/
def pollWaitRun (cond : Nat → Bool) (body : Nat → SharedRead) : Nat × Bool :=
  pollWaitAux cond body MAX_RESPONSE_TIME 0

theorem pollWaitAux_spec (cond : Nat → Bool) (body : Nat → SharedRead) :
    ∀ fuel idle, fuel + idle = MAX_RESPONSE_TIME →
      (pollWaitAux cond body fuel idle).1 ≤ MAX_RESPONSE_TIME ∧
      ((∀ k, cond k = false) → idle ≤ IDLE_POLL →
        (pollWaitAux cond body fuel idle).1 ≤ IDLE_POLL) ∧
      ((pollWaitAux cond body fuel idle).2 = true →
        idle < (pollWaitAux cond body fuel idle).1 ∧
        (body ((pollWaitAux cond body fuel idle).1 - 1)).fend = true ∧
        (body ((pollWaitAux cond body fuel idle).1 - 1)).resp = true) ∧
      ((pollWaitAux cond body fuel idle).2 = false →
        (if cond (pollWaitAux cond body fuel idle).1 then MAX_RESPONSE_TIME
         else IDLE_POLL) ≤ (pollWaitAux cond body fuel idle).1) := by
  intro fuel
  induction fuel with
  | zero =>
    intro idle h
    have hz : idle = MAX_RESPONSE_TIME := by omega
    subst hz
    simp only [pollWaitAux]
    refine ⟨le_refl _, fun _ h2 => h2, by simp, ?_⟩
    intro _
    split
    · exact le_refl _
    · exact by decide
  | succ n ih =>
    intro idle h
    by_cases hg : (if cond idle then idle < MAX_RESPONSE_TIME else idle < IDLE_POLL)
    · have hidle : idle < MAX_RESPONSE_TIME := by
        by_cases hc : cond idle
        · simpa [hc] using hg
        · have : idle < IDLE_POLL := by simpa [hc] using hg
          simp [IDLE_POLL, MAX_RESPONSE_TIME] at this ⊢
          omega
      by_cases hb : ((body idle).fend && (body idle).resp) = true
      · have hres : pollWaitAux cond body (n + 1) idle = (idle + 1, true) := by
          simp only [pollWaitAux]
          rw [if_pos hg, if_pos hb]
        rw [hres]
        have hboth := Bool.and_eq_true_iff.mp hb
        refine ⟨by omega, ?_, ?_, by simp⟩
        · intro hc hile
          have : idle < IDLE_POLL := by simpa [hc idle] using hg
          omega
        · intro _
          exact ⟨by omega, by simpa using hboth.1, by simpa using hboth.2⟩
      · have hres : pollWaitAux cond body (n + 1) idle =
            pollWaitAux cond body n (idle + 1) := by
          simp only [pollWaitAux]
          rw [if_pos hg, if_neg hb]
        rw [hres]
        have ih' := ih (idle + 1) (by omega)
        refine ⟨ih'.1, ?_, ?_, ih'.2.2.2⟩
        · intro hc hile
          have : idle < IDLE_POLL := by simpa [hc idle] using hg
          exact ih'.2.1 hc (by omega)
        · intro hbrk
          have := ih'.2.2.1 hbrk
          exact ⟨by omega, this.2.1, this.2.2⟩
    · have hres : pollWaitAux cond body (n + 1) idle = (idle, false) := by
        simp only [pollWaitAux]
        rw [if_neg hg]
      rw [hres]
      refine ⟨by omega, fun _ hile => hile, by simp, ?_⟩
      intro _
      by_cases hc : cond idle
      · have : ¬ idle < MAX_RESPONSE_TIME := by simpa [hc] using hg
        simp [hc]
        omega
      · have : ¬ idle < IDLE_POLL := by simpa [hc] using hg
        simp [hc]
        omega

/-- Claim C1: the per-device busy-wait advances in 1 ms steps and obeys the
dual budget: the total iteration count never exceeds
`max IDLE_POLL MAX_RESPONSE_TIME = MAX_RESPONSE_TIME` (600 ms); if `*Resp`
is never observed nonzero the wait runs at most `IDLE_POLL` (150)
iterations; the loop leaves through the `break` only when the break test
read both `*End` and `*Resp` nonzero (never on `*End` alone); and when it
leaves without the `break` the budget applicable at exit had expired. -/
theorem c1_poll_wait_dual_budget (cond : Nat → Bool) (body : Nat → SharedRead) :
    (pollWaitRun cond body).1 ≤ max IDLE_POLL MAX_RESPONSE_TIME ∧
    ((∀ k, cond k = false) → (pollWaitRun cond body).1 ≤ IDLE_POLL) ∧
    ((pollWaitRun cond body).2 = true →
      (body ((pollWaitRun cond body).1 - 1)).fend = true ∧
      (body ((pollWaitRun cond body).1 - 1)).resp = true) ∧
    ((pollWaitRun cond body).2 = false →
      (if cond (pollWaitRun cond body).1 then MAX_RESPONSE_TIME
       else IDLE_POLL) ≤ (pollWaitRun cond body).1) := by
  have h := pollWaitAux_spec cond body MAX_RESPONSE_TIME 0 (by simp)
  refine ⟨?_, ?_, ?_, ?_⟩
  · have := h.1
    simp only [pollWaitRun]
    simp [IDLE_POLL, MAX_RESPONSE_TIME] at this ⊢
    omega
  · exact fun hc => h.2.1 hc (by simp [IDLE_POLL])
  · exact fun hb => ⟨(h.2.2.1 hb).2.1, (h.2.2.1 hb).2.2⟩
  · exact h.2.2.2

/-- Witness for C1 at the constant-false oracle. -/
theorem c1_poll_wait_dual_budget_witness :
    (pollWaitRun (fun _ => false) (fun _ => ⟨false, false⟩)).1 ≤ IDLE_POLL :=
  (c1_poll_wait_dual_budget (fun _ => false) (fun _ => ⟨false, false⟩)).2.1
    (fun _ => rfl)

/-- The discovery mailbox `NewClient[0..20]`: `NewClient[0]` is the pending
flag, `NewClient[1]` and `NewClient[2]` the IP-suffix pair, and
`NewClient[3..20]` the 18-byte serial number. -/
structure Mailbox where
  pending : Bool
  b1 : Nat
  b2 : Nat
  sn : List Nat
deriving DecidableEq

/-- One entry of the `Clients` table (`ClientIP_st`). -/
structure ClientRec where
  used : Bool
  next_to_last : Nat
  last : Nat
  sn : List Nat
deriving DecidableEq

/-- The shared-memory cells of the two-process system, plus the poll
process's private `Clients` table and `DeviceCount`, and the filter
process's private `IdleTime`. -/
structure Sys where
  resp : Nat
  fend : Nat
  nga : Nat
  idleTime : Nat
  mb : Mailbox
  clients : List ClientRec
  deviceCount : Nat
deriving DecidableEq

/-- The state right after `main` initialised the shared mappings (all cells
zeroed; `Clients` and `DeviceCount` are zero-initialised globals/locals). -/
def initSys : Sys :=
  { resp := 0, fend := 0, nga := 0, idleTime := 0,
    mb := { pending := false, b1 := 0, b2 := 0, sn := List.replicate 18 0 },
    clients :=
      List.replicate MAX_CLIENTS
        { used := false, next_to_last := 0, last := 0, sn := List.replicate 18 0 },
    deviceCount := 0 }

/-- Announce detection of `filter()`: captured length exactly 60 and the
marker byte `buffer[28] == 0x55` (85). -/
def isAnnounce (buf : List Nat) : Bool :=
  buf.length == 60 && buf.getD 28 0 == 85

/-- The mailbox update of `filter()` lines 353-369: on an announce frame,
if `NewClient[0] == 0`, store `buffer[30]`, `buffer[29]` and the 18 bytes
from `buffer[32]`, and set the pending flag; otherwise leave the mailbox
unchanged.  Bytes are reduced `% 256` because `NewClient` is an
`unsigned char` array. -/
def announceUpdate (mb : Mailbox) (buf : List Nat) : Mailbox :=
  if isAnnounce buf then
    if mb.pending = false then
      { pending := true, b1 := buf.getD 30 0 % 256, b2 := buf.getD 29 0 % 256,
        sn := ((buf.drop 32).take 18).map (fun x => x % 256) }
    else mb
  else mb

/-- One pass of the `filter()` receive loop body (lines 337-377) for a
received frame of `buf.length` bytes: an empty `buf` models
`recvfrom <= 0` (timeout), which only increments `IdleTime`; otherwise an
outgoing frame (`PACKET_OUTGOING`) is only logged while any other frame
sets `*End = 1` and resets `IdleTime`; announce detection then runs on the
frame regardless of its direction. -/
def frameStep (s : Sys) (outgoing : Bool) (buf : List Nat) : Sys :=
  if buf.length = 0 then { s with idleTime := s.idleTime + 1 }
  else
    let s1 := if outgoing then s else { s with fend := 1, idleTime := 0 }
    { s1 with mb := announceUpdate s1.mb buf }

/-- The test of the existing-client scan of `poll()` lines 563-573. -/
def matchesMB (mb : Mailbox) (c : ClientRec) : Bool :=
  c.used && (c.next_to_last == mb.b1) && (c.last == mb.b2)

/-- The record built from the mailbox by `poll()` lines 580-583. -/
def newRec (mb : Mailbox) : ClientRec :=
  { used := true, next_to_last := mb.b1, last := mb.b2, sn := mb.sn }

/-- The insert loop of `poll()` lines 576-588: write the first slot with
`used == 0`; if no slot is free the table is left unchanged. -/
def insertFirstFree : List ClientRec → ClientRec → List ClientRec
  | [], _ => []
  | c :: cs, r => if c.used then c :: insertFirstFree cs r else r :: cs

/-- Whether the table still has a free slot. -/
def hasFree (cs : List ClientRec) : Bool := cs.any (fun c => !c.used)

/-- The discovery drain of `poll()` lines 561-593: if the mailbox is
pending, scan for an existing record with the same IP-suffix pair; when
absent insert into the first free slot and increment `DeviceCount`
(an `unsigned char`, hence `% 256`); finally clear the pending flag. -/
def drainStep (s : Sys) : Sys :=
  if s.mb.pending then
    let existing := s.clients.any (matchesMB s.mb)
    { s with
      clients :=
        if existing then s.clients else insertFirstFree s.clients (newRec s.mb),
      deviceCount :=
        if existing then s.deviceCount
        else if hasFree s.clients then (s.deviceCount + 1) % 256
        else s.deviceCount,
      mb := { s.mb with pending := false } }
  else s

/-- The events of the two-process system that touch the shared cells:
frame reception and receive timeout in `filter()`; the discovery drain,
the per-poll flag writes (`*Resp = 0`, `*End = 0`, `*Nga = 1`) and the
end-of-round disarm (`*Nga = 0`) in `poll()`; and the two actions of
`sig_event_handler` (payload 0 sets `*Resp = 1`, any other payload sets
`*End = 1`, both only when `*Nga == 1`). -/
inductive SysEv where
  | frame (outgoing : Bool) (buf : List Nat)
  | timeout
  | drain
  | clearResp
  | clearEnd
  | armNga
  | disarmNga
  | sigStart
  | sigEnd
deriving DecidableEq

/-- Whether `sig_event_handler` is installed for signal 44.  In the source
the call `sigaction(44, &act, NULL)` at line 528 of `poll()` is commented
out, so the handler is never installed. -/
def handlerInstalled : Bool := false

/-- An event can occur in an execution of the program as coded: the signal
handler's actions require the handler to have been installed. -/
def enabled : SysEv → Bool
  | .sigStart => handlerInstalled
  | .sigEnd => handlerInstalled
  | _ => true

/-- The effect of one event on the system state, each case transcribed
from the corresponding source lines. -/
def sysStep (s : Sys) : SysEv → Sys
  | .frame o buf => frameStep s o buf
  | .timeout => { s with idleTime := s.idleTime + 1 }
  | .drain => drainStep s
  | .clearResp => { s with resp := 0 }
  | .clearEnd => { s with fend := 0 }
  | .armNga => { s with nga := 1 }
  | .disarmNga => { s with nga := 0 }
  | .sigStart => if s.nga = 1 then { s with resp := 1 } else s
  | .sigEnd => if s.nga = 1 then { s with fend := 1 } else s

/-- The state after a sequence of events starting from the initial state. -/
def runSys (es : List SysEv) : Sys := es.foldl sysStep initSys

theorem sysStep_resp_zero (s : Sys) (e : SysEv) (he : enabled e = true)
    (h : s.resp = 0) : (sysStep s e).resp = 0 := by
  cases e with
  | frame o buf =>
    simp only [sysStep, frameStep]
    split
    · exact h
    · cases o <;> simp [h]
  | timeout => exact h
  | drain =>
    simp only [sysStep, drainStep]
    split <;> simp [h]
  | clearResp => rfl
  | clearEnd => exact h
  | armNga => exact h
  | disarmNga => exact h
  | sigStart => exact absurd he (by simp [enabled, handlerInstalled])
  | sigEnd =>
    simp only [sysStep]
    split <;> simp [h]

theorem foldl_sysStep_resp_zero :
    ∀ (es : List SysEv) (s : Sys), (∀ e ∈ es, enabled e = true) → s.resp = 0 →
      (es.foldl sysStep s).resp = 0 := by
  intro es
  induction es with
  | nil => intro s _ h; exact h
  | cons e es ih =>
    intro s hen h
    simp only [List.foldl_cons]
    exact ih (sysStep s e) (fun x hx => hen x (List.mem_cons_of_mem e hx))
      (sysStep_resp_zero s e (hen e (List.mem_cons_self e es)) h)

theorem pollWaitAux_all_false (cond : Nat → Bool) (body : Nat → SharedRead)
    (hc : ∀ k, cond k = false) (hb : ∀ k, (body k).resp = false) :
    ∀ fuel idle, fuel + idle = MAX_RESPONSE_TIME → idle ≤ IDLE_POLL →
      pollWaitAux cond body fuel idle = (IDLE_POLL, false) := by
  intro fuel
  induction fuel with
  | zero =>
    intro idle h hle
    exfalso
    simp only [MAX_RESPONSE_TIME, IDLE_POLL] at h hle
    omega
  | succ n ih =>
    intro idle h hle
    by_cases hlt : idle < IDLE_POLL
    · have hg : (if cond idle then idle < MAX_RESPONSE_TIME
          else idle < IDLE_POLL) := by simp [hc idle, hlt]
      have hbreak : ((body idle).fend && (body idle).resp) = false := by
        simp [hb idle]
      simp only [pollWaitAux]
      rw [if_pos hg, if_neg (by simp [hbreak])]
      exact ih (idle + 1) (by omega) (by omega)
    · have hidle : idle = IDLE_POLL := by omega
      have hg : ¬ (if cond idle then idle < MAX_RESPONSE_TIME
          else idle < IDLE_POLL) := by simp [hc idle, hlt]
      simp only [pollWaitAux]
      rw [if_neg hg, hidle]

/-- Claim C9: the `sigaction` call that would install `sig_event_handler`
for signal 44 is commented out in the source, so the handler's actions are
never enabled; consequently `*Resp` is `0` in every reachable state of the
two-process system, every device-poll wait whose flag reads therefore all
return zero terminates exactly at the `IDLE_POLL` (150 ms) ceiling without
ever taking the early exit, and the `*Resp == 1` branch after the wait is
never taken. -/
theorem c9_handler_never_runs (es : List SysEv)
    (hen : ∀ e ∈ es, enabled e = true)
    (cond : Nat → Bool) (hc : ∀ k, cond k = false)
    (body : Nat → SharedRead) (hb : ∀ k, (body k).resp = false) :
    enabled SysEv.sigStart = false ∧ enabled SysEv.sigEnd = false ∧
    (runSys es).resp = 0 ∧
    pollWaitRun cond body = (IDLE_POLL, false) ∧
    (runSys es).resp ≠ 1 := by
  have hresp : (runSys es).resp = 0 :=
    foldl_sysStep_resp_zero es initSys hen rfl
  refine ⟨rfl, rfl, hresp, ?_, by omega⟩
  exact pollWaitAux_all_false cond body hc hb MAX_RESPONSE_TIME 0 (by simp)
    (by simp [IDLE_POLL])

/-- Witness for C9 at a concrete enabled event sequence and the
constant-zero flag oracles. -/
theorem c9_handler_never_runs_witness :
    enabled SysEv.sigStart = false ∧ enabled SysEv.sigEnd = false ∧
    (runSys [SysEv.timeout, SysEv.drain, SysEv.clearResp]).resp = 0 ∧
    pollWaitRun (fun _ => false) (fun _ => ⟨false, false⟩) = (IDLE_POLL, false) ∧
    (runSys [SysEv.timeout, SysEv.drain, SysEv.clearResp]).resp ≠ 1 :=
  c9_handler_never_runs [SysEv.timeout, SysEv.drain, SysEv.clearResp]
    (by decide) (fun _ => false) (fun _ => rfl) (fun _ => ⟨false, false⟩)
    (fun _ => rfl)

/-- No two in-use records of the table carry the same IP-suffix pair. -/
def DistinctUsedPairs (cs : List ClientRec) : Prop :=
  cs.Pairwise (fun a b => a.used = true → b.used = true →
    ¬(a.next_to_last = b.next_to_last ∧ a.last = b.last))

/-- Number of in-use records of the table. -/
def countUsed (cs : List ClientRec) : Nat :=
  (cs.filter (fun c => c.used)).length

theorem mem_insertFirstFree {cs : List ClientRec} {r x : ClientRec}
    (hx : x ∈ insertFirstFree cs r) : x ∈ cs ∨ x = r := by
  induction cs with
  | nil => simp [insertFirstFree] at hx
  | cons c cs ih =>
    simp only [insertFirstFree] at hx
    by_cases hc : c.used
    · rw [if_pos hc] at hx
      rcases List.mem_cons.mp hx with h | h
      · exact Or.inl (by simp [h])
      · rcases ih h with h2 | h2
        · exact Or.inl (List.mem_cons_of_mem c h2)
        · exact Or.inr h2
    · rw [if_neg hc] at hx
      rcases List.mem_cons.mp hx with h | h
      · exact Or.inr h
      · exact Or.inl (List.mem_cons_of_mem c h)

theorem length_insertFirstFree (cs : List ClientRec) (r : ClientRec) :
    (insertFirstFree cs r).length = cs.length := by
  induction cs with
  | nil => rfl
  | cons c cs ih =>
    simp only [insertFirstFree]
    split <;> simp [ih]

theorem insertFirstFree_of_not_hasFree (cs : List ClientRec) (r : ClientRec)
    (h : hasFree cs = false) : insertFirstFree cs r = cs := by
  induction cs with
  | nil => rfl
  | cons c cs ih =>
    simp only [hasFree, List.any_cons, Bool.or_eq_false_iff] at h
    have hc : c.used = true := by
      cases hcu : c.used
      · simp [hcu] at h
      · rfl
    simp only [insertFirstFree, if_pos hc]
    rw [ih h.2]

theorem countUsed_insertFirstFree (cs : List ClientRec) (r : ClientRec)
    (hr : r.used = true) (h : hasFree cs = true) :
    countUsed (insertFirstFree cs r) = countUsed cs + 1 := by
  induction cs with
  | nil => simp [hasFree] at h
  | cons c cs ih =>
    by_cases hc : c.used
    · have hfree : hasFree cs = true := by
        simpa [hasFree, hc] using h
      simp only [insertFirstFree, if_pos hc, countUsed, List.filter_cons, hc,
        if_true, List.length_cons] at ih ⊢
      rw [ih hfree]
    · have hcf : c.used = false := by simpa using hc
      simp only [countUsed] at ih ⊢
      simp [insertFirstFree, hcf, List.filter_cons, hr]

theorem distinct_insertFirstFree (cs : List ClientRec) (r : ClientRec)
    (hcs : DistinctUsedPairs cs)
    (hnew : ∀ c ∈ cs, c.used = true →
      ¬(c.next_to_last = r.next_to_last ∧ c.last = r.last)) :
    DistinctUsedPairs (insertFirstFree cs r) := by
  induction cs with
  | nil => exact List.Pairwise.nil
  | cons c cs ih =>
    rcases List.pairwise_cons.mp hcs with ⟨hhead, htail⟩
    by_cases hc : c.used
    · simp only [insertFirstFree, if_pos hc]
      refine List.pairwise_cons.mpr ⟨?_, ?_⟩
      · intro b hb
        rcases mem_insertFirstFree hb with h2 | h2
        · exact hhead b h2
        · subst h2
          intro hcu hru
          exact hnew c (List.mem_cons_self c cs) hcu
      · exact ih htail (fun x hx => hnew x (List.mem_cons_of_mem c hx))
    · simp only [insertFirstFree, if_neg hc]
      refine List.pairwise_cons.mpr ⟨?_, htail⟩
      intro b hb hru hbu
      intro hpair
      exact hnew b (List.mem_cons_of_mem c hb) hbu ⟨hpair.1.symm, hpair.2.symm⟩

theorem get?_insertFirstFree (cs : List ClientRec) (r : ClientRec) :
    ∀ (i : Nat) (c : ClientRec), cs.get? i = some c → c.used = true →
      (insertFirstFree cs r).get? i = some c := by
  induction cs with
  | nil => intro i c h _; simp at h
  | cons a cs ih =>
    intro i c h hu
    cases i with
    | zero =>
      simp only [List.get?_cons_zero, Option.some.injEq] at h
      subst h
      simp only [insertFirstFree, if_pos hu, List.get?_cons_zero]
    | succ i =>
      simp only [List.get?_cons_succ] at h
      by_cases ha : a.used
      · simp only [insertFirstFree, if_pos ha, List.get?_cons_succ]
        exact ih i c h hu
      · simp only [insertFirstFree, if_neg ha, List.get?_cons_succ]
        exact h

/-- The table/counter invariant of the poll process: distinct in-use
IP-suffix pairs, fixed table length (`MAX_CLIENTS`), and `DeviceCount`
equal to the number of in-use records. -/
def TableInv (s : Sys) : Prop :=
  DistinctUsedPairs s.clients ∧ s.clients.length = MAX_CLIENTS ∧
    s.deviceCount = countUsed s.clients

theorem countUsed_le_length (cs : List ClientRec) : countUsed cs ≤ cs.length :=
  List.length_filter_le _ cs

theorem sysStep_clients_eq (s : Sys) (e : SysEv) (hne : e ≠ SysEv.drain) :
    (sysStep s e).clients = s.clients := by
  cases e with
  | frame o buf =>
    simp only [sysStep, frameStep]
    split
    · rfl
    · cases o <;> rfl
  | drain => exact absurd rfl hne
  | timeout => rfl
  | clearResp => rfl
  | clearEnd => rfl
  | armNga => rfl
  | disarmNga => rfl
  | sigStart =>
    simp only [sysStep]
    split <;> rfl
  | sigEnd =>
    simp only [sysStep]
    split <;> rfl

theorem sysStep_deviceCount_eq (s : Sys) (e : SysEv) (hne : e ≠ SysEv.drain) :
    (sysStep s e).deviceCount = s.deviceCount := by
  cases e with
  | frame o buf =>
    simp only [sysStep, frameStep]
    split
    · rfl
    · cases o <;> rfl
  | drain => exact absurd rfl hne
  | timeout => rfl
  | clearResp => rfl
  | clearEnd => rfl
  | armNga => rfl
  | disarmNga => rfl
  | sigStart =>
    simp only [sysStep]
    split <;> rfl
  | sigEnd =>
    simp only [sysStep]
    split <;> rfl

theorem tableInv_drain (s : Sys) (h : TableInv s) : TableInv (drainStep s) := by
  rcases h with ⟨hdist, hlen, hdc⟩
  by_cases hp : s.mb.pending
  · by_cases hex : s.clients.any (matchesMB s.mb) = true
    · simp only [drainStep, if_pos hp, TableInv, hex]
      exact ⟨by simpa [hex] using hdist, by simpa [hex] using hlen,
        by simpa [hex] using hdc⟩
    · have hexf : s.clients.any (matchesMB s.mb) = false :=
        Bool.eq_false_iff.mpr hex
      have hnew : ∀ c ∈ s.clients, c.used = true →
          ¬(c.next_to_last = (newRec s.mb).next_to_last ∧
            c.last = (newRec s.mb).last) := by
        intro c hc hcu hpair
        have := List.any_eq_false.mp hexf c hc
        simp only [matchesMB, newRec] at this hpair
        simp [hcu, hpair.1, hpair.2] at this
      by_cases hfree : hasFree s.clients = true
      · refine ⟨?_, ?_, ?_⟩
        · simp only [drainStep, if_pos hp, hexf]
          simpa using distinct_insertFirstFree s.clients (newRec s.mb) hdist hnew
        · simp only [drainStep, if_pos hp, hexf]
          simpa using (length_insertFirstFree s.clients (newRec s.mb)).trans hlen
        · simp only [drainStep, if_pos hp, hexf, hfree]
          have hcnt := countUsed_insertFirstFree s.clients (newRec s.mb) rfl hfree
          have hle := countUsed_le_length s.clients
          rw [hlen] at hle
          simp only [MAX_CLIENTS] at hle
          simp only [Bool.false_eq_true, if_false, if_true]
          rw [hcnt, hdc]
          omega
      · have hff : hasFree s.clients = false := Bool.eq_false_iff.mpr hfree
        have heq := insertFirstFree_of_not_hasFree s.clients (newRec s.mb) hff
        refine ⟨?_, ?_, ?_⟩
        · simp only [drainStep, if_pos hp, hexf]
          simpa [heq] using hdist
        · simp only [drainStep, if_pos hp, hexf]
          simpa [heq] using hlen
        · simp only [drainStep, if_pos hp, hexf, hff]
          simpa [heq] using hdc
  · simp only [drainStep, if_neg hp]
    exact ⟨hdist, hlen, hdc⟩

theorem tableInv_step (s : Sys) (e : SysEv) (h : TableInv s) :
    TableInv (sysStep s e) := by
  by_cases he : e = SysEv.drain
  · subst he
    exact tableInv_drain s h
  · rcases h with ⟨hdist, hlen, hdc⟩
    refine ⟨?_, ?_, ?_⟩
    · rw [sysStep_clients_eq s e he]; exact hdist
    · rw [sysStep_clients_eq s e he]; exact hlen
    · rw [sysStep_clients_eq s e he, sysStep_deviceCount_eq s e he]; exact hdc

theorem pairwise_replicate_of_rel {α : Type} {r : α → α → Prop} (a : α)
    (h : r a a) : ∀ n, (List.replicate n a).Pairwise r := by
  intro n
  induction n with
  | zero => exact List.Pairwise.nil
  | succ n ih =>
    rw [List.replicate_succ]
    refine List.pairwise_cons.mpr ⟨?_, ih⟩
    intro b hb
    rw [List.eq_of_mem_replicate hb]
    exact h

theorem tableInv_init : TableInv initSys := by
  refine ⟨?_, by simp [initSys], by simp [initSys, countUsed]⟩
  simp only [initSys, DistinctUsedPairs]
  refine pairwise_replicate_of_rel _ ?_ _
  intro hu
  simp at hu

theorem tableInv_runSys (es : List SysEv) : TableInv (runSys es) := by
  have : ∀ (es : List SysEv) (s : Sys), TableInv s →
      TableInv (es.foldl sysStep s) := by
    intro es
    induction es with
    | nil => exact fun s h => h
    | cons e es ih => exact fun s h => ih (sysStep s e) (tableInv_step s e h)
  exact this es initSys tableInv_init

theorem sysStep_preserves_used_record (s : Sys) (e : SysEv) (i : Nat)
    (c : ClientRec) (h : s.clients.get? i = some c) (hu : c.used = true) :
    (sysStep s e).clients.get? i = some c := by
  by_cases he : e = SysEv.drain
  · subst he
    simp only [sysStep, drainStep]
    by_cases hp : s.mb.pending
    · rw [if_pos hp]
      by_cases hex : s.clients.any (matchesMB s.mb) = true
      · simpa [hex] using h
      · have hexf : s.clients.any (matchesMB s.mb) = false :=
          Bool.eq_false_iff.mpr hex
        simp only [hexf, Bool.false_eq_true, if_false]
        exact get?_insertFirstFree s.clients (newRec s.mb) i c h hu
    · rw [if_neg hp]; exact h
  · rw [sysStep_clients_eq s e he]; exact h

/-- Claim C2: starting from the initial empty table, after any sequence of
events of the system (in particular any sequence of discovery drains) the
`Clients` table never holds two in-use records with the same
`(next_to_last, last)` IP-suffix pair, never holds more than
`MAX_CLIENTS` (64) in-use records, and is append-only: any in-use record
survives any further events unchanged, at its slot. -/
theorem c2_table_invariants (es : List SysEv) :
    DistinctUsedPairs (runSys es).clients ∧
    countUsed (runSys es).clients ≤ MAX_CLIENTS ∧
    (∀ (more : List SysEv) (i : Nat) (c : ClientRec),
      (runSys es).clients.get? i = some c → c.used = true →
      (runSys (es ++ more)).clients.get? i = some c) := by
  have hinv := tableInv_runSys es
  refine ⟨hinv.1, ?_, ?_⟩
  · have := countUsed_le_length (runSys es).clients
    rw [hinv.2.1] at this
    exact this
  · intro more
    have hgen : ∀ (ms : List SysEv) (s : Sys) (i : Nat) (c : ClientRec),
        s.clients.get? i = some c → c.used = true →
        (ms.foldl sysStep s).clients.get? i = some c := by
      intro ms
      induction ms with
      | nil => exact fun s i c h _ => h
      | cons m ms ih =>
        intro s i c h hu
        exact ih (sysStep s m) i c (sysStep_preserves_used_record s m i c h hu) hu
    intro i c h hu
    rw [runSys, List.foldl_append]
    exact hgen more (runSys es) i c h hu

/-- A concrete 60-byte Device Announce frame: marker `0x55` at offset 28,
IP-suffix bytes 7 (offset 29) and 9 (offset 30), serial number of 18 one
bytes starting at offset 32. -/
def demoBuf : List Nat :=
  List.replicate 28 0 ++ [85, 7, 9, 0] ++ List.replicate 18 1 ++
    List.replicate 10 0

/-- Witness for C2: after one announce and one drain, the inserted record
sits in slot 0 and survives a further drain unchanged. -/
theorem c2_table_invariants_witness :
    (runSys ([SysEv.frame false demoBuf, SysEv.drain] ++ [SysEv.drain])).clients.get? 0 =
      some { used := true, next_to_last := 9, last := 7,
             sn := List.replicate 18 1 } :=
  (c2_table_invariants [SysEv.frame false demoBuf, SysEv.drain]).2.2
    [SysEv.drain] 0
    { used := true, next_to_last := 9, last := 7, sn := List.replicate 18 1 }
    (by decide) (by decide)

/-- Structure `Topology_Dev_st`: one Device Descriptor of the Topology message. -/
structure TopologyDev where
  ip_lsb : Nat
  ip_msb : Nat
  duplicate_flag : Nat
  serial_number : List Nat
  reserved1 : Nat
deriving DecidableEq

/-- The descriptor filled in for one in-use client by `poll()` lines
630-637: `ip_lsb` from `last`, `ip_msb` from `next_to_last`,
`duplicate_flag` written `0`; `reserved1` is never written and stays at
the `calloc` zero. -/
def topoDevOf (c : ClientRec) : TopologyDev :=
  { ip_lsb := c.last, ip_msb := c.next_to_last, duplicate_flag := 0,
    serial_number := c.sn, reserved1 := 0 }

/-- The descriptors appended to the message: one per in-use record, in
table order (the loop of lines 626-642). -/
def topoDevs (cs : List ClientRec) : List TopologyDev :=
  (cs.filter (fun c => c.used)).map topoDevOf

/-- The copy `memcpy(dev->serial_number, Clients[i].sn, 18)`: exactly 18 bytes. -/
def pad18 (l : List Nat) : List Nat :=
  ((l.map (fun x => x % 256)) ++ List.replicate 18 0).take 18

/-- Byte layout of `Topology_Dev_st` (five `unsigned char` fields, no
padding): 22 bytes per descriptor. -/
def encodeDev (d : TopologyDev) : List Nat :=
  [d.ip_lsb % 256, d.ip_msb % 256, d.duplicate_flag % 256] ++
    pad18 d.serial_number ++ [d.reserved1 % 256]

/-- Byte layout of `Topology_Msg_st` as filled by `poll()` lines 601-624:
4 seconds bytes and 4 nanosecond bytes (little-endian), the 16-bit MQTT
port (little-endian), the device count and the format-version byte `1`.
`m = tv.tv_usec * 1000` is an `unsigned int`, hence the mod `2 ^ 32`. -/
def topoHeader (dc secs usecs : Nat) : List Nat :=
  [secs % 256, secs / 2 ^ 8 % 256, secs / 2 ^ 16 % 256, secs / 2 ^ 24 % 256,
   (usecs * 1000) % 2 ^ 32 % 256, (usecs * 1000) % 2 ^ 32 / 2 ^ 8 % 256,
   (usecs * 1000) % 2 ^ 32 / 2 ^ 16 % 256, (usecs * 1000) % 2 ^ 32 / 2 ^ 24 % 256,
   OUR_MQTT_PORT % 256, OUR_MQTT_PORT / 2 ^ 8 % 256,
   dc % 256, 1]

/-- The full broadcast payload: header then `device_count` descriptors;
its length is the `xmit_len` accumulated by the source. -/
def buildTopology (cs : List ClientRec) (dc secs usecs : Nat) : List Nat :=
  topoHeader dc secs usecs ++ (topoDevs cs).flatMap encodeDev

theorem encodeDev_length (d : TopologyDev) : (encodeDev d).length = 22 := by
  simp [encodeDev, pad18]

theorem bind_encodeDev_length (ds : List TopologyDev) :
    (ds.flatMap encodeDev).length = 22 * ds.length := by
  induction ds with
  | nil => simp
  | cons d ds ih =>
    simp only [List.flatMap_cons, List.length_append, encodeDev_length, ih,
      List.length_cons]
    ring

/-- Claim C7: building the Topology message twice from the same unchanged
table and device count, at two different capture times, yields payloads of
identical length that agree byte-for-byte from offset 8 on; the first
eight bytes are exactly the two 4-byte timestamp fields. -/
theorem c7_topology_rebuild_timestamp_only
    (cs : List ClientRec) (dc s1 u1 s2 u2 : Nat) :
    (buildTopology cs dc s1 u1).length = (buildTopology cs dc s2 u2).length ∧
    (buildTopology cs dc s1 u1).drop 8 = (buildTopology cs dc s2 u2).drop 8 ∧
    (buildTopology cs dc s1 u1).take 8 =
      [s1 % 256, s1 / 2 ^ 8 % 256, s1 / 2 ^ 16 % 256, s1 / 2 ^ 24 % 256,
       (u1 * 1000) % 2 ^ 32 % 256, (u1 * 1000) % 2 ^ 32 / 2 ^ 8 % 256,
       (u1 * 1000) % 2 ^ 32 / 2 ^ 16 % 256,
       (u1 * 1000) % 2 ^ 32 / 2 ^ 24 % 256] := by
  refine ⟨?_, ?_, ?_⟩
  · simp [buildTopology, topoHeader]
  · simp [buildTopology, topoHeader]
  · simp [buildTopology, topoHeader]

/-- Claim C8: in every broadcast Topology message built from a reachable
state, the `device_count` byte (offset 10) equals the number of Device
Descriptor records appended (the message length is exactly
`12 + 22 * device_count`), and the maintained `DeviceCount` counter equals
the number of in-use records of the table. -/
theorem c8_device_count_matches (es : List SysEv) (secs usecs : Nat) :
    (runSys es).deviceCount = countUsed (runSys es).clients ∧
    (topoDevs (runSys es).clients).length = countUsed (runSys es).clients ∧
    (buildTopology (runSys es).clients (runSys es).deviceCount secs usecs).get? 10 =
      some (countUsed (runSys es).clients) ∧
    (buildTopology (runSys es).clients (runSys es).deviceCount secs usecs).length =
      12 + 22 * countUsed (runSys es).clients := by
  have hinv := tableInv_runSys es
  have hdc := hinv.2.2
  have hle : countUsed (runSys es).clients ≤ 64 := by
    have h2 := countUsed_le_length (runSys es).clients
    rw [hinv.2.1] at h2
    simpa [MAX_CLIENTS] using h2
  refine ⟨hdc, by simp [topoDevs, countUsed], ?_, ?_⟩
  · have hmod : (runSys es).deviceCount % 256 = countUsed (runSys es).clients := by
      rw [hdc]
      omega
    simp [buildTopology, topoHeader, hmod]
  · rw [buildTopology, List.length_append, bind_encodeDev_length, topoDevs,
      List.length_map]
    simp [topoHeader, countUsed]

theorem get?_append_plus {α : Type} (l₁ l₂ : List α) (n : Nat) :
    (l₁ ++ l₂).get? (l₁.length + n) = l₂.get? n := by
  induction l₁ with
  | nil => simp
  | cons a l ih =>
    rw [List.cons_append, List.length_cons]
    have h : l.length + 1 + n = (l.length + n) + 1 := by omega
    rw [h, List.get?_cons_succ]
    exact ih

theorem flatMap_encodeDev_dup_byte :
    ∀ (ds : List TopologyDev), (∀ d ∈ ds, d.duplicate_flag = 0) →
      ∀ j, j < ds.length → (ds.flatMap encodeDev).get? (22 * j + 2) = some 0 := by
  intro ds
  induction ds with
  | nil =>
    intro _ j hj
    simp at hj
  | cons d ds ih =>
    intro h j hj
    cases j with
    | zero =>
      have hd : d.duplicate_flag = 0 := h d (List.mem_cons_self d ds)
      simp [List.flatMap_cons, encodeDev, hd]
    | succ j =>
      rw [List.flatMap_cons]
      have hl : 22 * (j + 1) + 2 = (encodeDev d).length + (22 * j + 2) := by
        rw [encodeDev_length]
        ring
      rw [hl, get?_append_plus]
      exact ih (fun x hx => h x (List.mem_cons_of_mem d hx)) j (by simpa using hj)

/-- Claim C10: every Device Descriptor written into a Topology message has
`duplicate_flag = 0` (the loop assigns the constant `0` and nothing else
ever writes the field), so the byte at offset `12 + 22*j + 2` of the
payload is `0` for every descriptor index `j`. -/
theorem c10_duplicate_flag_always_zero (cs : List ClientRec)
    (dc secs usecs j : Nat) (hj : j < (topoDevs cs).length) :
    (∀ d ∈ topoDevs cs, d.duplicate_flag = 0) ∧
    (buildTopology cs dc secs usecs).get? (12 + (22 * j + 2)) = some 0 := by
  have hdup : ∀ d ∈ topoDevs cs, d.duplicate_flag = 0 := by
    intro d hd
    simp only [topoDevs, List.mem_map, List.mem_filter] at hd
    rcases hd with ⟨c, _, hc⟩
    rw [← hc]
    rfl
  refine ⟨hdup, ?_⟩
  have hlen : (topoHeader dc secs usecs).length = 12 := by simp [topoHeader]
  have hidx : 12 + (22 * j + 2) =
      (topoHeader dc secs usecs).length + (22 * j + 2) := by rw [hlen]
  rw [buildTopology, hidx, get?_append_plus]
  exact flatMap_encodeDev_dup_byte (topoDevs cs) hdup j hj

/-- The record the discovery drain builds from `demoBuf`. -/
def demoRec : ClientRec :=
  { used := true, next_to_last := 9, last := 7, sn := List.replicate 18 1 }

/-- Witness for C10 on a one-device table. -/
theorem c10_duplicate_flag_always_zero_witness :
    (∀ d ∈ topoDevs [demoRec], d.duplicate_flag = 0) ∧
    (buildTopology [demoRec] 1 0 0).get? (12 + (22 * 0 + 2)) = some 0 :=
  c10_duplicate_flag_always_zero [demoRec] 1 0 0 0 (by decide)

/-- A UDP datagram as handed to `sendto`: destination address and port
(the `struct sockaddr_in s`) plus the payload bytes. -/
structure Datagram where
  destIp : Nat × Nat × Nat × Nat
  destPort : Nat
  payload : List Nat
deriving DecidableEq

/-- The per-device poll transmission of `poll()` lines 658-665: the four
payload bytes are `169, 254, next_to_last, last` (the `mess` buffer), and
the destination is the `struct sockaddr_in s` initialised once at lines
543-546: `inet_addr("169.254.255.255")` and `htons(BROADCAST_PORT)` -
`s` is never modified afterwards. -/
def pollDatagram (c : ClientRec) : Datagram :=
  { destIp := (169, 254, 255, 255), destPort := BROADCAST_PORT,
    payload := [169, 254, c.next_to_last % 256, c.last % 256] }

/-- The shared-write/transmit actions of the poll round, in program
order. -/
inductive PEv where
  | wResp (v : Nat)
  | wEnd (v : Nat)
  | wNga (v : Nat)
  | send (d : Datagram)
  | wait
deriving DecidableEq

/-- The actions performed for one in-use device by `poll()` lines 658-680:
`*Resp = 0; *End = 0; *Nga = 1; sendto(...); <busy-wait>`. -/
def devicePollEvents (c : ClientRec) : List PEv :=
  [.wResp 0, .wEnd 0, .wNga 1, .send (pollDatagram c), .wait]

/-- The whole poll round, lines 654-684: the actions of every in-use
device in table order, followed by the single `*Nga = 0` after the loop
(line 684). -/
def pollRoundEvents (cs : List ClientRec) : List PEv :=
  ((cs.filter (fun c => c.used)).flatMap devicePollEvents) ++ [.wNga 0]

/-- The value of `*Nga` after executing a list of poll-round actions,
starting from the value `v`. -/
def ngaAfter (v : Nat) : List PEv → Nat
  | [] => v
  | .wNga w :: es => ngaAfter w es
  | _ :: es => ngaAfter v es

/-- Claim C4 counterexample: for the in-use record with IP-suffix pair
`(9, 7)` the poll datagram's destination is NOT the per-device address
`169.254.9.7`; it is the fixed broadcast address `169.254.255.255`, and
the per-device octets travel in the payload instead. -/
theorem c4_counterexample :
    (pollDatagram demoRec).destIp ≠ (169, 254, 9, 7) ∧
    (pollDatagram demoRec).destIp = (169, 254, 255, 255) ∧
    (pollDatagram demoRec).payload = [169, 254, 9, 7] ∧
    (pollDatagram demoRec).destPort = 30000 := by
  refine ⟨by decide, rfl, by decide, rfl⟩

/-- Claim C4 as amended: for every in-use record of the table, the poll
round transmits a 4-byte datagram whose payload is
`[169, 254, next_to_last, last]` (the per-device address appears in the
payload) and whose destination is the fixed broadcast address
`169.254.255.255` on port `BROADCAST_PORT` (30000). -/
theorem c4_poll_datagram_amended (cs : List ClientRec) (c : ClientRec)
    (hc : c ∈ cs) (hu : c.used = true) :
    PEv.send { destIp := (169, 254, 255, 255), destPort := BROADCAST_PORT,
               payload := [169, 254, c.next_to_last % 256, c.last % 256] } ∈
      pollRoundEvents cs := by
  have hf : c ∈ cs.filter (fun c => c.used) :=
    List.mem_filter.mpr ⟨hc, by simp [hu]⟩
  have hm : PEv.send (pollDatagram c) ∈ devicePollEvents c := by
    simp [devicePollEvents]
  have hb : PEv.send (pollDatagram c) ∈
      (cs.filter (fun c => c.used)).flatMap devicePollEvents :=
    List.mem_flatMap.mpr ⟨c, hf, hm⟩
  exact List.mem_append_left _ hb

/-- Witness for the amended C4 on a one-device table. -/
theorem c4_poll_datagram_amended_witness :
    PEv.send { destIp := (169, 254, 255, 255), destPort := BROADCAST_PORT,
               payload := [169, 254, 9 % 256, 7 % 256] } ∈
      pollRoundEvents [demoRec] :=
  c4_poll_datagram_amended [demoRec] demoRec (by decide) (by decide)

/-- A second concrete in-use record. -/
def demoRec2 : ClientRec :=
  { used := true, next_to_last := 10, last := 20, sn := List.replicate 18 2 }

theorem ngaAfter_append (l1 l2 : List PEv) :
    ∀ v, ngaAfter v (l1 ++ l2) = ngaAfter (ngaAfter v l1) l2 := by
  induction l1 with
  | nil => intro v; rfl
  | cons e l ih =>
    intro v
    cases e <;> simp [ngaAfter, ih]

theorem ngaAfter_devicePollEvents (c : ClientRec) (v : Nat) :
    ngaAfter v (devicePollEvents c) = 1 := rfl

theorem count_wNga0_flatMap (us : List ClientRec) :
    (us.flatMap devicePollEvents).count (PEv.wNga 0) = 0 := by
  induction us with
  | nil => rfl
  | cons u us ih =>
    rw [List.flatMap_cons, List.count_append, ih]
    rfl

/-- Claim C3 counterexample: with two in-use devices, the events of one
poll round are the first device's actions immediately followed by the
second device's actions; no `*Nga = 0` write occurs between them (the
count of `*Nga = 0` writes inside the per-device actions is zero), and the
value of `*Nga` at the boundary between the two device polls is `1`, not
`0`. -/
theorem c3_counterexample :
    pollRoundEvents [demoRec, demoRec2] =
      devicePollEvents demoRec ++ (devicePollEvents demoRec2 ++ [PEv.wNga 0]) ∧
    ngaAfter 0 (devicePollEvents demoRec) = 1 ∧
    (devicePollEvents demoRec ++ devicePollEvents demoRec2).count
      (PEv.wNga 0) = 0 := by
  refine ⟨by decide, rfl, by decide⟩

/-- Claim C3 as amended: the poll process writes `*Nga = 0` exactly once
per round, as the round's last action after the per-device loop (line
684), not after each device; consequently at the boundary after any
nonempty prefix of the in-use devices - in particular between two
consecutive device polls - `*Nga` is still `1`. -/
theorem c3_nga_disarmed_once_after_round (cs : List ClientRec)
    (us0 : List ClientRec) (u : ClientRec) (us2 : List ClientRec) (v : Nat)
    (hsplit : cs.filter (fun c => c.used) = (us0 ++ [u]) ++ us2) :
    (pollRoundEvents cs).count (PEv.wNga 0) = 1 ∧
    (pollRoundEvents cs).getLast? = some (PEv.wNga 0) ∧
    ngaAfter v ((us0 ++ [u]).flatMap devicePollEvents) = 1 := by
  refine ⟨?_, ?_, ?_⟩
  · rw [pollRoundEvents, List.count_append, count_wNga0_flatMap]
    rfl
  · rw [pollRoundEvents]
    exact List.getLast?_concat _
  · rw [List.flatMap_append, ngaAfter_append]
    simp only [List.flatMap_cons, List.flatMap_nil, List.append_nil]
    exact ngaAfter_devicePollEvents u _

/-- Witness for the amended C3 on a two-device table, split between the
first and the second device. -/
theorem c3_nga_disarmed_once_after_round_witness :
    (pollRoundEvents [demoRec, demoRec2]).count (PEv.wNga 0) = 1 ∧
    (pollRoundEvents [demoRec, demoRec2]).getLast? = some (PEv.wNga 0) ∧
    ngaAfter 0 (([] ++ [demoRec]).flatMap devicePollEvents) = 1 :=
  c3_nga_disarmed_once_after_round [demoRec, demoRec2] [] demoRec [demoRec2] 0
    (by decide)

/-- Claim C5 counterexample: a frame whose capture direction is outgoing is
NOT fully ignored beyond logging - the announce detection of lines 353-369
runs on it regardless of direction.  Concretely, processing the outgoing
announce frame `demoBuf` from the initial state publishes to the Discovery
Mailbox (`pending` becomes true) even though `*End` and `IdleTime` are
left alone. -/
theorem c5_counterexample :
    (sysStep initSys (SysEv.frame true demoBuf)).mb.pending = true ∧
    initSys.mb.pending = false ∧
    (sysStep initSys (SysEv.frame true demoBuf)).fend = initSys.fend ∧
    (sysStep initSys (SysEv.frame true demoBuf)).idleTime = initSys.idleTime := by
  refine ⟨by decide, rfl, by decide, by decide⟩

/-- Claim C5 as amended: for every nonempty captured frame, an outgoing
frame leaves `*End`, `IdleTime`, `*Resp`, `*Nga` and the `Clients` table
unchanged, while any other (inbound) frame sets `*End = 1` and resets
`IdleTime` to `0`; the Discovery-Mailbox announce handling, however, is
applied to the frame identically in both directions (an outgoing 60-byte
frame with the `0x55` marker can publish to the mailbox). -/
theorem c5_outgoing_vs_inbound (s : Sys) (b : Nat) (rest : List Nat) :
    (sysStep s (SysEv.frame true (b :: rest))).fend = s.fend ∧
    (sysStep s (SysEv.frame true (b :: rest))).idleTime = s.idleTime ∧
    (sysStep s (SysEv.frame true (b :: rest))).resp = s.resp ∧
    (sysStep s (SysEv.frame true (b :: rest))).nga = s.nga ∧
    (sysStep s (SysEv.frame true (b :: rest))).clients = s.clients ∧
    (sysStep s (SysEv.frame true (b :: rest))).mb =
      announceUpdate s.mb (b :: rest) ∧
    (sysStep s (SysEv.frame false (b :: rest))).fend = 1 ∧
    (sysStep s (SysEv.frame false (b :: rest))).idleTime = 0 ∧
    (sysStep s (SysEv.frame false (b :: rest))).mb =
      announceUpdate s.mb (b :: rest) := by
  simp [sysStep, frameStep]

/-- Claim C6: a captured frame is treated as a Device Announce exactly when
its captured length is 60 and the marker byte at offset 28 is `0x55`; on
such a frame with the mailbox empty, the capture process stores the
IP-suffix pair from offsets 30 and 29 and the 18 bytes from offset 32 and
sets the pending flag; when the mailbox is already pending the announce is
dropped with the mailbox contents unchanged; a non-announce frame never
touches the mailbox. -/
theorem c6_announce_detection_and_mailbox (s : Sys) (o : Bool) (b : Nat)
    (rest : List Nat) :
    (isAnnounce (b :: rest) = true → s.mb.pending = false →
      (sysStep s (SysEv.frame o (b :: rest))).mb =
        { pending := true, b1 := (b :: rest).getD 30 0 % 256,
          b2 := (b :: rest).getD 29 0 % 256,
          sn := (((b :: rest).drop 32).take 18).map (fun x => x % 256) }) ∧
    (isAnnounce (b :: rest) = true → s.mb.pending = true →
      (sysStep s (SysEv.frame o (b :: rest))).mb = s.mb) ∧
    (isAnnounce (b :: rest) = false →
      (sysStep s (SysEv.frame o (b :: rest))).mb = s.mb) ∧
    isAnnounce (b :: rest) =
      ((b :: rest).length == 60 && (b :: rest).getD 28 0 == 85) := by
  refine ⟨?_, ?_, ?_, rfl⟩ <;> intro h1 <;>
    first
      | (intro h2
         cases o <;> simp [sysStep, frameStep, announceUpdate, h1, h2])
      | (cases o <;> simp [sysStep, frameStep, announceUpdate, h1])

/-- Witness for C6: the concrete announce frame `demoBuf` published into
the empty initial mailbox. -/
theorem c6_announce_detection_and_mailbox_witness :
    (sysStep initSys (SysEv.frame false demoBuf)).mb =
      { pending := true, b1 := demoBuf.getD 30 0 % 256,
        b2 := demoBuf.getD 29 0 % 256,
        sn := ((demoBuf.drop 32).take 18).map (fun x => x % 256) } := by
  have h := (c6_announce_detection_and_mailbox initSys false 0
    (demoBuf.drop 1)).1
  exact h (by decide) rfl
